import Mathlib

/-!
Verification of the `cuco::static_multiset` handle layer
(`include/cuco/detail/static_multiset/static_multiset.inl`).

The handle layer owns an engine (`impl_`), forwards batched operations to it
parameterized by operator tags, and implements the synchronous/asynchronous
execution contract: every synchronous method enqueues via its `_async`
counterpart and then blocks until the stream drains.

The engine collaborator (`open_addressing_impl`) is external to the given
source; its observable behaviour is modelled from the spec where marked.
Keys are modelled as `Int` (the concrete scenario uses the empty sentinel
`-1`); a stream is a queue of enqueued-but-not-yet-executed operations, and
waiting on the stream executes them in issue order.
-/

set_option linter.unusedVariables false

namespace Cuco

/-- Key type of the modelled instantiation: integral keys as `Int`. -/
abbrev Key := Int

/-- Construction-time configuration held by the engine: the key-equality
predicate, the slot capacity, and the two sentinels. Per the spec these are
immutable after construction. -/
structure EngineConfig where
  keyEq : Key → Key → Bool
  capacity : Nat
  emptyKeySentinel : Key
  erasedKeySentinel : Key

/-- Modelled from the spec: the engine collaborator (`open_addressing_impl`,
the device-resident slot storage behind `impl_`) is not part of the given
source. Per the spec its observable state is the multiset of stored keys
(kept here as a list in insertion order) together with the immutable
configuration; slot layout and probing are abstracted away. -/
structure EngineState where
  config : EngineConfig
  contents : List Key

/-- The operator tags (`cuco::op`) that parameterize a reference. -/
inductive Operator where
  | insert
  | contains
  | find
  | count
  deriving DecidableEq, Repr

/-- Modelled from the spec: `cuco::detail::bitwise_compare` (its header is not
part of the given source) performs a bit-exact comparison of two key values;
two integral keys are bit-identical exactly when they are equal. -/
def bitwise_compare (a b : Key) : Bool := a == b

/-- Physical shape of a reference: the compact form tracks only the empty
sentinel, the extended form carries both sentinels. -/
inductive RefForm where
  | compact (emptyKeySentinel : Key)
  | extended (emptyKeySentinel erasedKeySentinel : Key)
  deriving DecidableEq, Repr

/-- A non-owning view of the engine bound to the requested operator kinds. -/
structure RefView where
  operators : List Operator
  form : RefForm
  keyEq : Key → Key → Bool

/-- One host-visible output cell written by a completed batched query. -/
inductive HostCell where
  | boolCell (b : Bool)
  | slotCell (r : Option Nat)
  deriving DecidableEq, Repr

/-- A batched operation enqueued on the stream but not yet executed. -/
inductive StreamOp where
  | insertOp (keys : List Key)
  | insertIfOp (keys : List Key) (stencil : List Int) (pred : Int → Bool)
  | clearOp
  | containsOp (keys : List Key)
  | containsIfOp (keys : List Key) (stencil : List Int) (pred : Int → Bool)
  | findOp (keys : List Key)

/-- Modelled from the spec: the number of stored occurrences matching probe
key `k` under the equality predicate `eq`. -/
def matchCount (eq : Key → Key → Bool) (e : EngineState) (k : Key) : Nat :=
  (e.contents.filter (fun x => eq k x)).length

/-- Modelled from the spec: the per-element stencil gate of `insert_if` —
element `i` is attempted exactly when the predicate holds on stencil element
`i`; a false predicate skips the element entirely. -/
def insertIfKeys (pred : Int → Bool) : List Key → List Int → List Key
  | [], _ => []
  | _ :: _, [] => []
  | k :: ks, s :: ss =>
      if pred s then k :: insertIfKeys pred ks ss else insertIfKeys pred ks ss

/-- Modelled from the spec: the effect of one enqueued batched engine
operation on the engine state, together with the host cells it writes on
completion. Inserts append all keys (multiset semantics, no deduplication);
`clear` empties the contents; queries write cells and leave the state
unchanged; `find` writes a locator to one matching occurrence or the
not-found locator `none`. -/
def applyOp (e : EngineState) : StreamOp → EngineState × List HostCell
  | .insertOp ks => ({ e with contents := e.contents ++ ks }, [])
  | .insertIfOp ks ss p => ({ e with contents := e.contents ++ insertIfKeys p ks ss }, [])
  | .clearOp => ({ e with contents := [] }, [])
  | .containsOp ks =>
      (e, ks.map (fun k => HostCell.boolCell (decide (0 < matchCount e.config.keyEq e k))))
  | .containsIfOp ks ss p =>
      (e, (insertIfKeys p ks ss).map
            (fun k => HostCell.boolCell (decide (0 < matchCount e.config.keyEq e k))))
  | .findOp ks =>
      (e, ks.map (fun k =>
            HostCell.slotCell (List.findIdx? (fun x => e.config.keyEq k x) e.contents)))

/-- The host-visible world: the handle's engine (`impl_`), the stream's queue
of pending operations, and the host cells written so far. -/
structure World where
  impl_ : EngineState
  pending : List StreamOp
  outputs : List HostCell

/-- Execute a queue of pending operations in issue order, accumulating
host-visible cells. -/
def drain (e : EngineState) (out : List HostCell) : List StreamOp → EngineState × List HostCell
  | [] => (e, out)
  | op :: rest => drain (applyOp e op).1 (out ++ (applyOp e op).2) rest

/-- Blocking until the stream has drained (`stream.wait()`): every pending
operation executes in issue order, its host cells become visible, and the
queue empties. -/
def streamWait (w : World) : World :=
  { impl_ := (drain w.impl_ w.outputs w.pending).1
    pending := []
    outputs := (drain w.impl_ w.outputs w.pending).2 }

/-- Modelled from the spec: engine-side `count` — the sum over the probe keys
of the number of matching occurrences; a key with zero matches contributes 0. -/
def impl_count (eq : Key → Key → Bool) (e : EngineState) (ks : List Key) : Nat :=
  (ks.map (fun k => matchCount eq e k)).sum

/-- Modelled from the spec: engine-side `count_outer` — identical to `count`
except a probe key with zero matches contributes exactly 1. -/
def impl_count_outer (eq : Key → Key → Bool) (e : EngineState) (ks : List Key) : Nat :=
  (ks.map (fun k => if matchCount eq e k = 0 then 1 else matchCount eq e k)).sum

namespace static_multiset

/-- `insert_async` (source lines 141-145): enqueues the batched insert on the
stream and returns without blocking. -/
def insert_async (w : World) (ks : List Key) : World :=
  { w with pending := w.pending ++ [StreamOp.insertOp ks] }

/-- `insert` (source lines 126-131): `this->insert_async(first, last, stream);
stream.wait();`. -/
def insert (w : World) (ks : List Key) : World :=
  streamWait (insert_async w ks)

/-- `insert_if_async` (source lines 170-178). -/
def insert_if_async (w : World) (ks : List Key) (stencil : List Int) (pred : Int → Bool) : World :=
  { w with pending := w.pending ++ [StreamOp.insertIfOp ks stencil pred] }

/-- `insert_if` (source lines 155-160): `insert_if_async` then `stream.wait()`. -/
def insert_if (w : World) (ks : List Key) (stencil : List Int) (pred : Int → Bool) : World :=
  streamWait (insert_if_async w ks stencil pred)

/-- `contains_async` (source lines 203-210). -/
def contains_async (w : World) (ks : List Key) : World :=
  { w with pending := w.pending ++ [StreamOp.containsOp ks] }

/-- `contains` (source lines 188-193): `contains_async` then `stream.wait()`. -/
def contains (w : World) (ks : List Key) : World :=
  streamWait (contains_async w ks)

/-- `contains_if_async` (source lines 240-249). -/
def contains_if_async (w : World) (ks : List Key) (stencil : List Int) (pred : Int → Bool) : World :=
  { w with pending := w.pending ++ [StreamOp.containsIfOp ks stencil pred] }

/-- `contains_if` (source lines 220-230): `contains_if_async` then `stream.wait()`. -/
def contains_if (w : World) (ks : List Key) (stencil : List Int) (pred : Int → Bool) : World :=
  streamWait (contains_if_async w ks stencil pred)

/-- `find_async` (source lines 274-278). -/
def find_async (w : World) (ks : List Key) : World :=
  { w with pending := w.pending ++ [StreamOp.findOp ks] }

/-- `find` (source lines 259-264): `find_async` then `stream.wait()`. -/
def find (w : World) (ks : List Key) : World :=
  streamWait (find_async w ks)

/-- `clear_async` (source lines 112-116): forwards to `impl_->clear_async`,
which enqueues the reset without blocking. -/
def clear_async (w : World) : World :=
  { w with pending := w.pending ++ [StreamOp.clearOp] }

/-- `clear` (source lines 99-103) forwards to `impl_->clear(stream)`.
Modelled from the spec: the engine's blocking clear (not part of the given
source) resets every slot to empty, blocking the caller until the stream
drains — i.e. the enqueue of the reset followed by the wait. -/
def clear (w : World) : World :=
  streamWait (clear_async w)

/-- `count` (source lines 289-293): blocking; forwards to `impl_->count` with
`ref(op::count)`, whose key equality is the stored predicate. -/
def count (w : World) (ks : List Key) : Nat :=
  impl_count (streamWait w).impl_.config.keyEq (streamWait w).impl_ ks

/-- `count` overload with a probe-side key equality and hash (source lines
304-315): forwards to `impl_->count` with
`ref(op::count).with_key_eq(probe_key_equal).with_hash_function(probe_hash)`.
The probe hash selects the probing sequence only; under the spec's engine
semantics the total is the sum of matches under the probe equality. -/
def count_probe (w : World) (probe_key_equal : Key → Key → Bool)
    (probe_hash : Key → Nat) (ks : List Key) : Nat :=
  impl_count probe_key_equal (streamWait w).impl_ ks

/-- `count_outer` (source lines 326-338): like the probe-side `count` but an
unmatched probe key contributes exactly 1. -/
def count_outer (w : World) (probe_key_equal : Key → Key → Bool)
    (probe_hash : Key → Nat) (ks : List Key) : Nat :=
  impl_count_outer probe_key_equal (streamWait w).impl_ ks

/-- `size` (source lines 347-352): blocking occupancy query. -/
def size (w : World) : Nat :=
  (streamWait w).impl_.contents.length

/-- `capacity` (source lines 361-366). -/
def capacity (w : World) : Nat :=
  w.impl_.config.capacity

/-- `empty_key_sentinel` (source lines 375-380). -/
def empty_key_sentinel (w : World) : Key :=
  w.impl_.config.emptyKeySentinel

/-- `erased_key_sentinel` (source lines 389-394). -/
def erased_key_sentinel (w : World) : Key :=
  w.impl_.config.erasedKeySentinel

/-- `ref` (source lines 403-420): `static_assert(sizeof...(Operators))`
rejects an empty operator pack (modelled as `none`); otherwise the view is
the compact single-sentinel form when `bitwise_compare` finds the two
sentinels bit-identical, and the extended dual-sentinel form otherwise. -/
def ref (w : World) (ops : List Operator) : Option RefView :=
  if ops.isEmpty then none
  else some
    (if bitwise_compare (empty_key_sentinel w) (erased_key_sentinel w) then
      { operators := ops
        form := RefForm.compact (empty_key_sentinel w)
        keyEq := w.impl_.config.keyEq }
    else
      { operators := ops
        form := RefForm.extended (empty_key_sentinel w) (erased_key_sentinel w)
        keyEq := w.impl_.config.keyEq })

/-- Constructor without an erased sentinel (source lines 34-46). Modelled
from the spec: the engine initializes every slot to the empty sentinel and,
with no erased sentinel supplied, keeps the erased sentinel bit-identical to
the empty one (compact representation). -/
def construct (cap : Nat) (empty : Key) (keyEq : Key → Key → Bool) : World :=
  { impl_ :=
      { config :=
          { keyEq := keyEq
            capacity := cap
            emptyKeySentinel := empty
            erasedKeySentinel := empty }
        contents := [] }
    pending := []
    outputs := [] }

/-- Constructor with an erased sentinel (source lines 77-90). -/
def construct_with_erased (cap : Nat) (empty erased : Key) (keyEq : Key → Key → Bool) : World :=
  { impl_ :=
      { config :=
          { keyEq := keyEq
            capacity := cap
            emptyKeySentinel := empty
            erasedKeySentinel := erased }
        contents := [] }
    pending := []
    outputs := [] }

end static_multiset

/-! ## Helper lemmas about draining the stream -/

/-- Every engine operation leaves the construction-time configuration
unchanged. -/
theorem applyOp_config (e : EngineState) (op : StreamOp) : (applyOp e op).1.config = e.config := by
  cases op <;> rfl

/-- Draining a queue leaves the configuration unchanged. -/
theorem drain_config (ops : List StreamOp) (e : EngineState) (out : List HostCell) :
    (drain e out ops).1.config = e.config := by
  induction ops generalizing e out with
  | nil => rfl
  | cons op rest ih => rw [drain, ih, applyOp_config]

/-- Draining a concatenated queue drains the first part, then the second. -/
theorem drain_append (l1 l2 : List StreamOp) (e : EngineState) (out : List HostCell) :
    drain e out (l1 ++ l2) = drain (drain e out l1).1 (drain e out l1).2 l2 := by
  induction l1 generalizing e out with
  | nil => rfl
  | cons op rest ih => rw [List.cons_append, drain, ih, drain]

/-- Waiting on a drained stream is a no-op. -/
theorem streamWait_of_pending_nil (e : EngineState) (out : List HostCell) :
    streamWait ⟨e, [], out⟩ = ⟨e, [], out⟩ := rfl

/-! ## Claim theorems -/

/-- Claim C1: every public synchronous batched operation (`insert`,
`insert_if`, `contains`, `contains_if`, `find`, `clear`) is observably equal
to calling its `_async` variant with the same arguments on the same stream
and then blocking until the stream drains; it adds no other effect. -/
theorem sync_is_async_then_wait (w : World) (ks : List Key) (ss : List Int) (p : Int → Bool) :
    static_multiset.insert w ks = streamWait (static_multiset.insert_async w ks) ∧
    static_multiset.insert_if w ks ss p = streamWait (static_multiset.insert_if_async w ks ss p) ∧
    static_multiset.contains w ks = streamWait (static_multiset.contains_async w ks) ∧
    static_multiset.contains_if w ks ss p =
      streamWait (static_multiset.contains_if_async w ks ss p) ∧
    static_multiset.find w ks = streamWait (static_multiset.find_async w ks) ∧
    static_multiset.clear w = streamWait (static_multiset.clear_async w) :=
  ⟨rfl, rfl, rfl, rfl, rfl, rfl⟩

/-- Claim C2: for every handle and every call to `ref`, the form of the
returned view is a pure function of the bit-exact comparison of the two
sentinels — bit-identical sentinels select the compact single-sentinel form,
distinct sentinels the extended dual-sentinel form — and two calls on the
same handle always select the same form. -/
theorem ref_form_function_of_sentinels (w : World) (ops ops2 : List Operator)
    (h1 : ops ≠ []) (h2 : ops2 ≠ []) :
    (bitwise_compare (static_multiset.empty_key_sentinel w)
        (static_multiset.erased_key_sentinel w) = true →
      static_multiset.ref w ops =
        some { operators := ops
               form := RefForm.compact (static_multiset.empty_key_sentinel w)
               keyEq := w.impl_.config.keyEq }) ∧
    (bitwise_compare (static_multiset.empty_key_sentinel w)
        (static_multiset.erased_key_sentinel w) = false →
      static_multiset.ref w ops =
        some { operators := ops
               form := RefForm.extended (static_multiset.empty_key_sentinel w)
                         (static_multiset.erased_key_sentinel w)
               keyEq := w.impl_.config.keyEq }) ∧
    (∀ v v2, static_multiset.ref w ops = some v → static_multiset.ref w ops2 = some v2 →
      v.form = v2.form) := by
  have e1 : ops.isEmpty = false := by
    cases ops with
    | nil => exact absurd rfl h1
    | cons a l => rfl
  have e2 : ops2.isEmpty = false := by
    cases ops2 with
    | nil => exact absurd rfl h2
    | cons a l => rfl
  refine ⟨fun hb => ?_, fun hb => ?_, fun v v2 hv hv2 => ?_⟩
  · simp [static_multiset.ref, e1, hb]
  · simp [static_multiset.ref, e1, hb]
  · rcases Bool.eq_false_or_eq_true (bitwise_compare (static_multiset.empty_key_sentinel w)
      (static_multiset.erased_key_sentinel w)) with hb | hb <;>
    · simp [static_multiset.ref, e1, e2, hb] at hv hv2
      rw [← hv, ← hv2]

/-- Witness for C2 at a concrete handle: a handle constructed with empty
sentinel `-1` and erased sentinel `7`, probed with two distinct non-empty
operator packs. -/
theorem ref_form_function_of_sentinels_witness :
    ([Operator.insert] ≠ ([] : List Operator)) ∧
    ([Operator.contains, Operator.find] ≠ ([] : List Operator)) ∧
    (let w := static_multiset.construct_with_erased 16 (-1) 7 (fun a b => a == b)
     (bitwise_compare (static_multiset.empty_key_sentinel w)
        (static_multiset.erased_key_sentinel w) = true →
      static_multiset.ref w [Operator.insert] =
        some { operators := [Operator.insert]
               form := RefForm.compact (static_multiset.empty_key_sentinel w)
               keyEq := w.impl_.config.keyEq }) ∧
    (bitwise_compare (static_multiset.empty_key_sentinel w)
        (static_multiset.erased_key_sentinel w) = false →
      static_multiset.ref w [Operator.insert] =
        some { operators := [Operator.insert]
               form := RefForm.extended (static_multiset.empty_key_sentinel w)
                         (static_multiset.erased_key_sentinel w)
               keyEq := w.impl_.config.keyEq }) ∧
    (∀ v v2, static_multiset.ref w [Operator.insert] = some v →
      static_multiset.ref w [Operator.contains, Operator.find] = some v2 →
      v.form = v2.form)) :=
  ⟨by simp, by simp,
    ref_form_function_of_sentinels
      (static_multiset.construct_with_erased 16 (-1) 7 (fun a b => a == b))
      [Operator.insert] [Operator.contains, Operator.find] (by simp) (by simp)⟩

/-- Claim C9: calling `ref` with zero requested operator kinds fails at
construction (the `static_assert`, modelled as `none`); for any non-empty
operator pack the call succeeds and returns a reference bound to exactly the
requested kinds. -/
theorem ref_requires_nonempty_operators (w : World) (ops : List Operator) (h : ops ≠ []) :
    static_multiset.ref w [] = none ∧
    ∃ v, static_multiset.ref w ops = some v ∧ v.operators = ops := by
  have e1 : ops.isEmpty = false := by
    cases ops with
    | nil => exact absurd rfl h
    | cons a l => rfl
  refine ⟨rfl, ?_⟩
  rcases Bool.eq_false_or_eq_true (bitwise_compare (static_multiset.empty_key_sentinel w)
      (static_multiset.erased_key_sentinel w)) with hb | hb
  · exact ⟨{ operators := ops
             form := RefForm.compact (static_multiset.empty_key_sentinel w)
             keyEq := w.impl_.config.keyEq },
      by simp [static_multiset.ref, e1, hb], rfl⟩
  · exact ⟨{ operators := ops
             form := RefForm.extended (static_multiset.empty_key_sentinel w)
                       (static_multiset.erased_key_sentinel w)
             keyEq := w.impl_.config.keyEq },
      by simp [static_multiset.ref, e1, hb], rfl⟩

/-- Witness for C9 at a concrete handle and the singleton insert pack. -/
theorem ref_requires_nonempty_operators_witness :
    ([Operator.insert] ≠ ([] : List Operator)) ∧
    (static_multiset.ref (static_multiset.construct 16 (-1) (fun a b => a == b)) [] = none ∧
     ∃ v, static_multiset.ref (static_multiset.construct 16 (-1) (fun a b => a == b))
            [Operator.insert] = some v ∧ v.operators = [Operator.insert]) :=
  ⟨by simp,
    ref_requires_nonempty_operators (static_multiset.construct 16 (-1) (fun a b => a == b))
      [Operator.insert] (by simp)⟩

/-- Claim C3: every inserted copy of an equal key is retained with no
deduplication — inserting `ks` into a drained handle appends all of `ks` to
the stored contents and grows `size` by exactly `ks.length` — and in the
concrete scenario (capacity 16, empty sentinel `-1`, insert `[3, 3, 5, 3]`)
`size` returns 4, `count [3]` returns 3, `count [7]` returns 0,
`count_outer [7]` returns 1, and `contains [3, 5, 7]` writes
`[true, true, false]`. -/
theorem insert_retains_all_duplicates (e : EngineState) (out : List HostCell) (ks : List Key) :
    (static_multiset.insert ⟨e, [], out⟩ ks).impl_.contents = e.contents ++ ks ∧
    static_multiset.size (static_multiset.insert ⟨e, [], out⟩ ks) =
      e.contents.length + ks.length ∧
    (let w := static_multiset.insert
        (static_multiset.construct 16 (-1) (fun a b => a == b)) [3, 3, 5, 3]
     static_multiset.size w = 4 ∧
     static_multiset.count w [3] = 3 ∧
     static_multiset.count w [7] = 0 ∧
     static_multiset.count_outer w (fun a b => a == b) (fun _ => 0) [7] = 1 ∧
     (static_multiset.contains w [3, 5, 7]).outputs =
       [HostCell.boolCell true, HostCell.boolCell true, HostCell.boolCell false]) := by
  refine ⟨rfl, ?_, rfl, rfl, rfl, rfl, rfl⟩
  simp [static_multiset.size, static_multiset.insert, static_multiset.insert_async,
    streamWait, drain, applyOp]

/-- Engine-side identity behind C4: the outer count is the inner count plus
the number of probe keys with zero matches. -/
theorem impl_count_outer_eq_add (eq : Key → Key → Bool) (e : EngineState) (ks : List Key) :
    impl_count_outer eq e ks =
      impl_count eq e ks + (ks.filter (fun k => matchCount eq e k == 0)).length := by
  induction ks with
  | nil => rfl
  | cons k ks ih =>
    simp only [impl_count_outer, impl_count, List.map_cons, List.sum_cons,
      List.filter_cons] at ih ⊢
    by_cases h : matchCount eq e k = 0
    · simp [h, ih]
      omega
    · simp [h, ih]
      omega

/-- Claim C4: for every handle state and input range, `count_outer` with a
probe predicate and hash equals `count` with the same probe predicate and
hash plus the number of input keys with zero matches in the set. -/
theorem count_outer_eq_count_add_unmatched (w : World) (probe_key_equal : Key → Key → Bool)
    (probe_hash : Key → Nat) (ks : List Key) :
    static_multiset.count_outer w probe_key_equal probe_hash ks =
      static_multiset.count_probe w probe_key_equal probe_hash ks +
        (ks.filter (fun k => matchCount probe_key_equal (streamWait w).impl_ k == 0)).length :=
  impl_count_outer_eq_add probe_key_equal (streamWait w).impl_ ks

/-- Engine-side count is invariant under permutation of the probe keys. -/
theorem impl_count_perm (eq : Key → Key → Bool) (e : EngineState) {ks ks2 : List Key}
    (h : ks.Perm ks2) : impl_count eq e ks = impl_count eq e ks2 :=
  List.Perm.sum_eq (h.map _)

/-- Engine-side outer count is invariant under permutation of the probe keys. -/
theorem impl_count_outer_perm (eq : Key → Key → Bool) (e : EngineState) {ks ks2 : List Key}
    (h : ks.Perm ks2) : impl_count_outer eq e ks = impl_count_outer eq e ks2 :=
  List.Perm.sum_eq (h.map _)

/-- Engine-side count distributes over appended probe ranges. -/
theorem impl_count_append (eq : Key → Key → Bool) (e : EngineState) (ks1 ks2 : List Key) :
    impl_count eq e (ks1 ++ ks2) = impl_count eq e ks1 + impl_count eq e ks2 := by
  simp [impl_count]

/-- Engine-side outer count distributes over appended probe ranges. -/
theorem impl_count_outer_append (eq : Key → Key → Bool) (e : EngineState) (ks1 ks2 : List Key) :
    impl_count_outer eq e (ks1 ++ ks2) =
      impl_count_outer eq e ks1 + impl_count_outer eq e ks2 := by
  simp [impl_count_outer]

/-- Claim C5: the totals returned by `count` (both overloads) and
`count_outer` are independent of the order of the input keys and are
monotonically non-decreasing when the input range is extended with
additional keys. -/
theorem count_order_invariant_and_monotone (w : World) (probe_key_equal : Key → Key → Bool)
    (probe_hash : Key → Nat) (ks ks2 more : List Key) (h : ks.Perm ks2) :
    static_multiset.count w ks = static_multiset.count w ks2 ∧
    static_multiset.count_probe w probe_key_equal probe_hash ks =
      static_multiset.count_probe w probe_key_equal probe_hash ks2 ∧
    static_multiset.count_outer w probe_key_equal probe_hash ks =
      static_multiset.count_outer w probe_key_equal probe_hash ks2 ∧
    static_multiset.count w ks ≤ static_multiset.count w (ks ++ more) ∧
    static_multiset.count_probe w probe_key_equal probe_hash ks ≤
      static_multiset.count_probe w probe_key_equal probe_hash (ks ++ more) ∧
    static_multiset.count_outer w probe_key_equal probe_hash ks ≤
      static_multiset.count_outer w probe_key_equal probe_hash (ks ++ more) := by
  refine ⟨impl_count_perm _ _ h, impl_count_perm _ _ h, impl_count_outer_perm _ _ h, ?_, ?_, ?_⟩
  · rw [show static_multiset.count w (ks ++ more) =
      impl_count (streamWait w).impl_.config.keyEq (streamWait w).impl_ (ks ++ more) from rfl,
      impl_count_append]
    exact Nat.le_add_right _ _
  · rw [show static_multiset.count_probe w probe_key_equal probe_hash (ks ++ more) =
      impl_count probe_key_equal (streamWait w).impl_ (ks ++ more) from rfl, impl_count_append]
    exact Nat.le_add_right _ _
  · rw [show static_multiset.count_outer w probe_key_equal probe_hash (ks ++ more) =
      impl_count_outer probe_key_equal (streamWait w).impl_ (ks ++ more) from rfl,
      impl_count_outer_append]
    exact Nat.le_add_right _ _

/-- Witness for C5 at a concrete handle with probe range `[3, 5]`, its
permutation `[5, 3]`, and extension `[7]`. -/
theorem count_order_invariant_and_monotone_witness :
    (([3, 5] : List Key).Perm [5, 3]) ∧
    (let w := static_multiset.construct 16 (-1) (fun a b => a == b)
     static_multiset.count w [3, 5] = static_multiset.count w [5, 3] ∧
     static_multiset.count_probe w (fun a b => a == b) (fun _ => 0) [3, 5] =
       static_multiset.count_probe w (fun a b => a == b) (fun _ => 0) [5, 3] ∧
     static_multiset.count_outer w (fun a b => a == b) (fun _ => 0) [3, 5] =
       static_multiset.count_outer w (fun a b => a == b) (fun _ => 0) [5, 3] ∧
     static_multiset.count w [3, 5] ≤ static_multiset.count w ([3, 5] ++ [7]) ∧
     static_multiset.count_probe w (fun a b => a == b) (fun _ => 0) [3, 5] ≤
       static_multiset.count_probe w (fun a b => a == b) (fun _ => 0) ([3, 5] ++ [7]) ∧
     static_multiset.count_outer w (fun a b => a == b) (fun _ => 0) [3, 5] ≤
       static_multiset.count_outer w (fun a b => a == b) (fun _ => 0) ([3, 5] ++ [7])) :=
  ⟨by decide,
    count_order_invariant_and_monotone
      (static_multiset.construct 16 (-1) (fun a b => a == b))
      (fun a b => a == b) (fun _ => 0) [3, 5] [5, 3] [7] (by decide)⟩

/-- Claim C6: calls with an empty range (`first == last`) to `insert`,
`contains`, and `count` are no-ops on a drained handle — the world (contents,
queue, and host cells) is left exactly as it was — and `count` on an empty
range returns 0. -/
theorem empty_range_noop (e : EngineState) (out : List HostCell) :
    static_multiset.insert ⟨e, [], out⟩ [] = ⟨e, [], out⟩ ∧
    static_multiset.contains ⟨e, [], out⟩ [] = ⟨e, [], out⟩ ∧
    static_multiset.count ⟨e, [], out⟩ [] = 0 := by
  refine ⟨?_, ?_, rfl⟩
  · simp [static_multiset.insert, static_multiset.insert_async, streamWait, drain, applyOp]
  · simp [static_multiset.contains, static_multiset.contains_async, streamWait, drain, applyOp]

/-- Draining any queue that ends in a `clear` leaves empty contents. -/
theorem drain_clearOp_contents (ops : List StreamOp) (e : EngineState) (out : List HostCell) :
    (drain e out (ops ++ [StreamOp.clearOp])).1.contents = [] := by
  rw [drain_append]; rfl

/-- After `clear`, whatever was pending, the stored contents are empty. -/
theorem clear_contents (w : World) : (static_multiset.clear w).impl_.contents = [] :=
  drain_clearOp_contents w.pending w.impl_ w.outputs

/-- Claim C7: `clear` is idempotent — after one `clear` and after a second
`clear` in a row on the same stream, `size` returns 0 (and the stored
contents are empty) — and a subsequent `contains` writes `false` for every
key, in particular for every key inserted before the first `clear`. -/
theorem clear_idempotent (w : World) (ks : List Key) :
    (static_multiset.clear w).impl_.contents = [] ∧
    static_multiset.size (static_multiset.clear w) = 0 ∧
    (static_multiset.clear (static_multiset.clear w)).impl_.contents = [] ∧
    static_multiset.size (static_multiset.clear (static_multiset.clear w)) = 0 ∧
    (static_multiset.contains (static_multiset.clear w) ks).outputs =
      (static_multiset.clear w).outputs ++ ks.map (fun _ => HostCell.boolCell false) := by
  have h1 : (static_multiset.clear w).impl_.contents = [] := clear_contents w
  have h2 : (static_multiset.clear (static_multiset.clear w)).impl_.contents = [] :=
    clear_contents (static_multiset.clear w)
  refine ⟨h1, ?_, h2, ?_, ?_⟩
  · show (static_multiset.clear w).impl_.contents.length = 0
    rw [h1]; rfl
  · show (static_multiset.clear (static_multiset.clear w)).impl_.contents.length = 0
    rw [h2]; rfl
  · show (static_multiset.clear w).outputs ++ ks.map (fun k => HostCell.boolCell
        (decide (0 < matchCount (static_multiset.clear w).impl_.config.keyEq
          (static_multiset.clear w).impl_ k))) = _
    simp [matchCount, h1]

/-- The stencil gate keeps exactly the keys whose stencil element passes the
predicate, in order. -/
theorem insertIfKeys_eq_filter (p : Int → Bool) (ks : List Key) (ss : List Int) :
    insertIfKeys p ks ss = ((ks.zip ss).filter (fun q => p q.2)).map Prod.fst := by
  induction ks generalizing ss with
  | nil => cases ss <;> rfl
  | cons k ks ih =>
    cases ss with
    | nil => rfl
    | cons s ss =>
      simp only [insertIfKeys, List.zip_cons_cons, List.filter_cons]
      by_cases h : p s
      · simp [h, ih]
      · simp [h, ih]

/-- Claim C8: `insert_if` inserts exactly the keys whose stencil element
satisfies the predicate — predicate-false elements are skipped entirely — so
the resulting world equals inserting only the predicate-true subsequence. -/
theorem insert_if_inserts_pred_true_subsequence (w : World) (ks : List Key) (ss : List Int)
    (p : Int → Bool) :
    static_multiset.insert_if w ks ss p =
      static_multiset.insert w (((ks.zip ss).filter (fun q => p q.2)).map Prod.fst) ∧
    insertIfKeys p ks ss = ((ks.zip ss).filter (fun q => p q.2)).map Prod.fst := by
  refine ⟨?_, insertIfKeys_eq_filter p ks ss⟩
  simp only [static_multiset.insert_if, static_multiset.insert,
    static_multiset.insert_if_async, static_multiset.insert_async, streamWait, drain_append]
  simp [drain, applyOp, insertIfKeys_eq_filter]

/-- Claim C10: every query (`contains`, `contains_if`, `find`, `count`,
`count_outer`, `size`, `capacity`, `empty_key_sentinel`,
`erased_key_sentinel`, `ref`) leaves the multiset's contents and its
construction-time configuration unchanged: beyond draining the already
pending queue, a query adds no effect, so observing the handle through any
query before and after another query yields identical results. -/
theorem queries_preserve_state (w : World) (ks ks2 : List Key) (ss : List Int) (p : Int → Bool)
    (probe_key_equal : Key → Key → Bool) (probe_hash : Key → Nat) (ops : List Operator) :
    (static_multiset.contains w ks).impl_ = (streamWait w).impl_ ∧
    (static_multiset.contains_if w ks ss p).impl_ = (streamWait w).impl_ ∧
    (static_multiset.find w ks).impl_ = (streamWait w).impl_ ∧
    static_multiset.count (static_multiset.contains w ks) ks2 = static_multiset.count w ks2 ∧
    static_multiset.count_outer (static_multiset.find w ks) probe_key_equal probe_hash ks2 =
      static_multiset.count_outer w probe_key_equal probe_hash ks2 ∧
    static_multiset.size (static_multiset.contains w ks) = static_multiset.size w ∧
    static_multiset.capacity (static_multiset.contains w ks) = static_multiset.capacity w ∧
    static_multiset.empty_key_sentinel (static_multiset.contains w ks) =
      static_multiset.empty_key_sentinel w ∧
    static_multiset.erased_key_sentinel (static_multiset.contains w ks) =
      static_multiset.erased_key_sentinel w ∧
    static_multiset.ref (static_multiset.contains w ks) ops = static_multiset.ref w ops := by
  have hcfg : (streamWait w).impl_.config = w.impl_.config :=
    drain_config w.pending w.impl_ w.outputs
  have hc : (static_multiset.contains w ks).impl_ = (streamWait w).impl_ := by
    show (drain w.impl_ w.outputs (w.pending ++ [StreamOp.containsOp ks])).1 = _
    rw [drain_append]; rfl
  have hci : (static_multiset.contains_if w ks ss p).impl_ = (streamWait w).impl_ := by
    show (drain w.impl_ w.outputs (w.pending ++ [StreamOp.containsIfOp ks ss p])).1 = _
    rw [drain_append]; rfl
  have hf : (static_multiset.find w ks).impl_ = (streamWait w).impl_ := by
    show (drain w.impl_ w.outputs (w.pending ++ [StreamOp.findOp ks])).1 = _
    rw [drain_append]; rfl
  have hcc : (static_multiset.contains w ks).impl_.config = w.impl_.config := by
    rw [hc, hcfg]
  refine ⟨hc, hci, hf, ?_, ?_, ?_, ?_, ?_, ?_, ?_⟩
  · show impl_count (static_multiset.contains w ks).impl_.config.keyEq
      (static_multiset.contains w ks).impl_ ks2 = _
    rw [hc]; rfl
  · show impl_count_outer probe_key_equal (static_multiset.find w ks).impl_ ks2 = _
    rw [hf]; rfl
  · show (static_multiset.contains w ks).impl_.contents.length = _
    rw [hc]; rfl
  · show (static_multiset.contains w ks).impl_.config.capacity = _
    rw [hcc]; rfl
  · show (static_multiset.contains w ks).impl_.config.emptyKeySentinel = _
    rw [hcc]; rfl
  · show (static_multiset.contains w ks).impl_.config.erasedKeySentinel = _
    rw [hcc]; rfl
  · simp only [static_multiset.ref, static_multiset.empty_key_sentinel,
      static_multiset.erased_key_sentinel, hcc]

end Cuco

